import Mathlib

/-!
Shallow embedding of `src/libc/af_local.cc` (OSv's AF_LOCAL socketpair
implementation): the bounded one-way byte channel `af_local_buffer`, its
readiness masks, its blocking `read`/`write` with scatter/gather `uio`
descriptors, half-close (`detach_sender` / `detach_receiver`), and the
pair factory `socketpair_af_local`.

Modelling conventions:
* Bytes are `Nat`; a byte queue is a `List Nat` (front = next byte to read).
* `uio` carries the iovec array and the signed residual count
  (`uio_resid` is a signed integer in the source; the copy loops can drive
  it negative, so it is `Int` here).
* An iovec's `iov_base` holds the current contents of the memory it points
  to; a read updates that memory, a write only consumes it.
* The copy loops are given explicit fuel and return `none` when it runs
  out: the source loops can spin forever on a zero-length first segment,
  and the fuel makes the model total while keeping every terminating
  execution exact.
* A call that would sleep on its condition variable (readiness mask zero at
  entry, no concurrent peer in this sequential model) is reported as
  `CallResult.blocked`.
* Condition-variable broadcasts and `poll_wake` notifications are recorded
  in an event trace, in program order.
-/

/-- Poll event bit POLLIN (0x001). -/
def POLLIN : Nat := 1

/-- Poll event bit POLLOUT (0x004). -/
def POLLOUT : Nat := 4

/-- Poll event bit POLLHUP (0x010). -/
def POLLHUP : Nat := 16

/-- Poll event bit POLLRDHUP (0x2000). -/
def POLLRDHUP : Nat := 8192

/-- errno value EPIPE (broken pipe). -/
def EPIPE : Int := 32

/-- errno value EINVAL (invalid argument). -/
def EINVAL : Int := 22

/-- Socket type SOCK_STREAM. -/
def SOCK_STREAM : Int := 1

/-- Socket type SOCK_DGRAM (any non-stream type works as an example). -/
def SOCK_DGRAM : Int := 2

/-- One scatter/gather segment: `iov_base` is the current contents of the
memory the segment points to, `iov_len` its length field. -/
structure iovec where
  iov_base : List Nat
  iov_len : Nat
deriving Repr, DecidableEq

/-- The I/O descriptor: segment array plus the signed residual byte count. -/
structure uio where
  uio_iov : List iovec
  uio_resid : Int
deriving Repr, DecidableEq

/-- State of one `af_local_buffer`: the byte queue and whether the
receiver/sender `struct file*` fields are non-null.  The mutex, condvars
and refcount are concurrency/lifetime machinery with no bearing on the
sequential data behaviour modelled here. -/
structure af_local_buffer where
  q : List Nat
  receiver : Bool
  sender : Bool
deriving Repr, DecidableEq

/-- `af_local_buffer::max_buf` (8192). -/
def max_buf : Nat := 8192

/-- Which endpoint pointer a `poll_wake` call targets. -/
inductive Role
  | sender
  | receiver
deriving Repr, DecidableEq

/-- Which condition variable a `wake_all` broadcast targets. -/
inductive CondVar
  | may_read
  | may_write
deriving Repr, DecidableEq

/-- One notification event issued by the code, in program order. -/
inductive Wake
  | poll_wake (target : Role) (events : Nat)
  | wake_all (cv : CondVar)
deriving Repr, DecidableEq

/-- Result of a call in this sequential model: `blocked` means the wait
loop would sleep with no peer to wake it; `fuelOut` means the copy loop
exhausted its fuel (the source spins forever on such inputs); `done`
carries (return value, buffer state, uio state, notification trace). -/
inductive CallResult (α : Type)
  | blocked
  | fuelOut
  | done (value : α)
deriving Repr, DecidableEq

/-- `af_local_buffer::read_events_unlocked`:
`ret |= !q.empty() ? POLLIN : 0; ret |= !sender ? POLLRDHUP : 0;`. -/
def read_events_unlocked (b : af_local_buffer) : Nat :=
  (if b.q = [] then 0 else POLLIN) ||| (if b.sender = false then POLLRDHUP else 0)

/-- `af_local_buffer::write_events_unlocked`:
`if (!receiver) return POLLHUP; ret |= q.size() < max_buf ? POLLOUT : 0;`. -/
def write_events_unlocked (b : af_local_buffer) : Nat :=
  if b.receiver = false then POLLHUP
  else if b.q.length < max_buf then POLLOUT else 0

/-- `af_local_buffer::read_events` (the locked wrapper computes the same
mask under the mutex). -/
def af_local_buffer.read_events (b : af_local_buffer) : Nat :=
  read_events_unlocked b

/-- `af_local_buffer::write_events` (locked wrapper). -/
def af_local_buffer.write_events (b : af_local_buffer) : Nat :=
  write_events_unlocked b

/-- The copy loop of `af_local_buffer::read`:
`while (data->uio_resid && (read_events_unlocked() & POLLIN)) { n = min(q.size(), iov->iov_len); copy q -> iov->iov_base; erase; uio_resid -= n; }`.
`iov` is fixed to the first segment and the copy always starts at the
segment's base — exactly as in the source, which never advances the
segment pointer or an intra-segment offset. -/
def readLoop (fuel : Nat) (iovs : List iovec) (resid : Int) (b : af_local_buffer) :
    Option (List iovec × Int × af_local_buffer) :=
  match fuel with
  | 0 => none
  | fuel' + 1 =>
    if resid ≠ 0 ∧ read_events_unlocked b &&& POLLIN ≠ 0 then
      match iovs with
      | [] => none
      | iov0 :: rest =>
        readLoop fuel'
          ({ iov0 with
              iov_base :=
                b.q.take (min b.q.length iov0.iov_len) ++
                  iov0.iov_base.drop (min b.q.length iov0.iov_len) } :: rest)
          (resid - (min b.q.length iov0.iov_len : Nat))
          { b with q := b.q.drop (min b.q.length iov0.iov_len) }
    else some (iovs, resid, b)

/-- The copy loop of `af_local_buffer::write`:
`while (data->uio_resid && (write_events_unlocked() & POLLOUT)) { n = min(max_buf - q.size(), iov->iov_len); append iov->iov_base[0..n) to q; uio_resid -= n; }`.
As in the source, the segment pointer never advances: every pass reads the
first `n` bytes of the first segment. -/
def writeLoop (fuel : Nat) (iovs : List iovec) (resid : Int) (b : af_local_buffer) :
    Option (Int × af_local_buffer) :=
  match fuel with
  | 0 => none
  | fuel' + 1 =>
    if resid ≠ 0 ∧ write_events_unlocked b &&& POLLOUT ≠ 0 then
      match iovs with
      | [] => none
      | iov0 :: _ =>
        writeLoop fuel' iovs
          (resid - (min (max_buf - b.q.length) iov0.iov_len : Nat))
          { b with
              q := b.q ++ iov0.iov_base.take (min (max_buf - b.q.length) iov0.iov_len) }
    else some (resid, b)

/-- `af_local_buffer::read`.  Returns 0 in every completed case; the byte
count is conveyed through `uio_resid`.  The post-loop notification embeds
the source's `if (write_events_unlocked() && POLLOUT)` — a logical `&&`,
so the condition is just "the write-side mask is nonzero". -/
def af_local_buffer.read (b : af_local_buffer) (data : uio) (fuel : Nat) :
    CallResult (Int × af_local_buffer × uio × List Wake) :=
  if data.uio_resid = 0 then
    .done (0, b, data, [])
  else if read_events_unlocked b = 0 then
    .blocked
  else if read_events_unlocked b &&& POLLIN = 0 then
    .done (0, b, data, [Wake.wake_all .may_write])
  else
    match readLoop fuel data.uio_iov data.uio_resid b with
    | none => .fuelOut
    | some (iovs2, resid2, b2) =>
      .done (0, b2, { uio_iov := iovs2, uio_resid := resid2 },
        (if write_events_unlocked b2 ≠ 0 then [Wake.poll_wake .sender POLLOUT] else []) ++
          [Wake.wake_all .may_write])

/-- `af_local_buffer::write`.  Returns the error code (`0` or `EPIPE`);
bytes accepted are conveyed through `uio_resid`.  The post-loop
notification embeds the source's `if (read_events_unlocked() && POLLIN)`
(logical `&&`: mask nonzero). -/
def af_local_buffer.write (b : af_local_buffer) (data : uio) (fuel : Nat) :
    CallResult (Int × af_local_buffer × uio × List Wake) :=
  if data.uio_resid = 0 then
    .done (0, b, data, [])
  else if write_events_unlocked b = 0 then
    .blocked
  else if write_events_unlocked b &&& POLLOUT = 0 then
    .done (EPIPE, b, data, [Wake.wake_all .may_read])
  else
    match writeLoop fuel data.uio_iov data.uio_resid b with
    | none => .fuelOut
    | some (resid2, b2) =>
      .done (0, b2, { data with uio_resid := resid2 },
        (if read_events_unlocked b2 ≠ 0 then [Wake.poll_wake .receiver POLLIN] else []) ++
          [Wake.wake_all .may_read])

/-- `af_local_buffer::detach_sender`: clear the sender if attached, notify
the receiver of POLLRDHUP if still attached, broadcast `may_read`. -/
def af_local_buffer.detach_sender (b : af_local_buffer) : af_local_buffer × List Wake :=
  if b.sender then
    ({ b with sender := false },
      (if b.receiver then [Wake.poll_wake .receiver POLLRDHUP] else []) ++
        [Wake.wake_all .may_read])
  else (b, [])

/-- `af_local_buffer::detach_receiver`: clear the receiver if attached,
notify the sender of POLLHUP if still attached, broadcast `may_write`. -/
def af_local_buffer.detach_receiver (b : af_local_buffer) : af_local_buffer × List Wake :=
  if b.receiver then
    ({ b with receiver := false },
      (if b.sender then [Wake.poll_wake .sender POLLHUP] else []) ++
        [Wake.wake_all .may_write])
  else (b, [])

/-- A freshly constructed `af_local_buffer` (empty queue, both endpoint
pointers null). -/
def af_local_buffer.init : af_local_buffer :=
  { q := [], receiver := false, sender := false }

/-- An `af_local` duplex pair: indices of its send and receive buffers. -/
structure af_local where
  send : Nat
  receive : Nat
deriving Repr, DecidableEq

/-- Outcome of `socketpair_af_local`.  `assert_failed` models a failed
`assert` (process abort, nothing allocated); `errno_return` models the
`catch (int error) { return libc_error(error); }` path for allocation
failures; `ok` carries the two duplex pairs and the two buffers they
cross-reference (after `af_local_init` attached both endpoints). -/
inductive SocketpairResult
  | assert_failed
  | errno_return (e : Int)
  | ok (s1 s2 : af_local) (buffers : List af_local_buffer)
deriving Repr, DecidableEq

/-- `socketpair_af_local`: `assert(type == SOCK_STREAM); assert(proto == 0);`
precede every allocation; with the asserts passed (and the external
allocator succeeding) the two cross-referencing pairs are built. -/
def socketpair_af_local (type proto : Int) : SocketpairResult :=
  if type = SOCK_STREAM then
    if proto = 0 then
      .ok { send := 0, receive := 1 } { send := 1, receive := 0 }
        [{ q := [], receiver := true, sender := true },
         { q := [], receiver := true, sender := true }]
    else .assert_failed
  else .assert_failed

/-! ### Readiness-mask characterizations -/

lemma pollin_iff (b : af_local_buffer) :
    read_events_unlocked b &&& POLLIN ≠ 0 ↔ b.q ≠ [] := by
  unfold read_events_unlocked
  by_cases hq : b.q = [] <;> cases hs : b.sender <;> simp [hq, hs] <;> decide

lemma pollrdhup_iff (b : af_local_buffer) :
    read_events_unlocked b &&& POLLRDHUP ≠ 0 ↔ b.sender = false := by
  unfold read_events_unlocked
  by_cases hq : b.q = [] <;> cases hs : b.sender <;> simp [hq, hs] <;> decide

lemma pollout_iff (b : af_local_buffer) :
    write_events_unlocked b &&& POLLOUT ≠ 0 ↔ (b.receiver = true ∧ b.q.length < max_buf) := by
  unfold write_events_unlocked
  cases hr : b.receiver <;> by_cases hroom : b.q.length < max_buf <;> simp [hr, hroom] <;> decide

lemma pollhup_iff (b : af_local_buffer) :
    write_events_unlocked b &&& POLLHUP ≠ 0 ↔ b.receiver = false := by
  unfold write_events_unlocked
  cases hr : b.receiver <;> by_cases hroom : b.q.length < max_buf <;> simp [hr, hroom] <;> decide

lemma read_events_eq_zero_iff (b : af_local_buffer) :
    read_events_unlocked b = 0 ↔ (b.q = [] ∧ b.sender = true) := by
  unfold read_events_unlocked
  by_cases hq : b.q = [] <;> cases hs : b.sender <;> simp [hq, hs] <;> decide

lemma write_events_eq_zero_iff (b : af_local_buffer) :
    write_events_unlocked b = 0 ↔ (b.receiver = true ∧ ¬ b.q.length < max_buf) := by
  unfold write_events_unlocked
  cases hr : b.receiver <;> by_cases hroom : b.q.length < max_buf <;> simp [hr, hroom] <;> decide

lemma read_events_only_bits (b : af_local_buffer) :
    read_events_unlocked b &&& (POLLIN ||| POLLRDHUP) = read_events_unlocked b := by
  unfold read_events_unlocked
  by_cases hq : b.q = [] <;> cases hs : b.sender <;> simp [hq, hs] <;> decide

lemma write_events_only_bits (b : af_local_buffer) :
    write_events_unlocked b &&& (POLLOUT ||| POLLHUP) = write_events_unlocked b := by
  unfold write_events_unlocked
  cases hr : b.receiver <;> by_cases hroom : b.q.length < max_buf <;> simp [hr, hroom] <;> decide

/-! ### Single-segment call specifications -/

/-- The `uio` a caller builds for a plain single-buffer write of `bytes`. -/
def mkWriteUio (bytes : List Nat) : uio :=
  { uio_iov := [{ iov_base := bytes, iov_len := bytes.length }],
    uio_resid := (bytes.length : Int) }

/-- The `uio` a caller builds for a plain single-buffer read of `len`
bytes into zero-initialized memory. -/
def mkReadUio (len : Nat) : uio :=
  { uio_iov := [{ iov_base := List.replicate len 0, iov_len := len }],
    uio_resid := (len : Int) }

/-- What a caller reads back from a scatter/gather destination: the
segments' memory contents, concatenated. -/
def gatherBytes : List iovec → List Nat
  | [] => []
  | v :: rest => v.iov_base ++ gatherBytes rest

lemma writeLoop_single (f : Nat) (b : af_local_buffer) (bytes : List Nat)
    (hr : b.receiver = true) (hroom : b.q.length < max_buf) (hb : bytes ≠ []) :
    writeLoop (Nat.succ (Nat.succ f)) [{ iov_base := bytes, iov_len := bytes.length }]
        (bytes.length : Int) b =
      some ((bytes.length : Int) - (min (max_buf - b.q.length) bytes.length : Nat),
        { b with q := b.q ++ bytes.take (min (max_buf - b.q.length) bytes.length) }) := by
  have hlen : bytes.length ≠ 0 := fun h => hb (List.length_eq_zero.mp h)
  have hres : (bytes.length : Int) ≠ 0 := Nat.cast_ne_zero.mpr hlen
  have hev : write_events_unlocked b &&& POLLOUT ≠ 0 := (pollout_iff b).mpr ⟨hr, hroom⟩
  rcases le_or_lt bytes.length (max_buf - b.q.length) with hle | hlt
  · rw [min_eq_right hle]
    simp only [writeLoop, if_pos (And.intro hres hev), min_eq_right hle]
    rw [if_neg]
    intro hcontra
    exact hcontra.1 (by simp)
  · have hfree : max_buf - b.q.length ≤ bytes.length := le_of_lt hlt
    rw [min_eq_left hfree]
    simp only [writeLoop, if_pos (And.intro hres hev), min_eq_left hfree]
    rw [if_neg]
    intro hcontra
    have hq2 : (b.q ++ bytes.take (max_buf - b.q.length)).length = max_buf := by
      rw [List.length_append, List.length_take, min_eq_left hfree]
      omega
    have := ((pollout_iff _).mp hcontra.2).2
    simp only [hq2] at this
    omega

lemma write_spec (b : af_local_buffer) (bytes : List Nat) (fuel : Nat)
    (hr : b.receiver = true) (hroom : b.q.length < max_buf) (hb : bytes ≠ [])
    (hfuel : 2 ≤ fuel) :
    b.write (mkWriteUio bytes) fuel =
      .done (0,
        { b with q := b.q ++ bytes.take (min (max_buf - b.q.length) bytes.length) },
        { uio_iov := [{ iov_base := bytes, iov_len := bytes.length }],
          uio_resid := (bytes.length : Int) - (min (max_buf - b.q.length) bytes.length : Nat) },
        [Wake.poll_wake .receiver POLLIN, Wake.wake_all .may_read]) := by
  obtain ⟨f, rfl⟩ : ∃ f, fuel = Nat.succ (Nat.succ f) := ⟨fuel - 2, by omega⟩
  have hlen : bytes.length ≠ 0 := fun h => hb (List.length_eq_zero.mp h)
  have hres : (bytes.length : Int) ≠ 0 := Nat.cast_ne_zero.mpr hlen
  have hev4 : write_events_unlocked b = POLLOUT := by
    unfold write_events_unlocked
    simp [hr, hroom]
  have hq2 : b.q ++ bytes.take (min (max_buf - b.q.length) bytes.length) ≠ [] := by
    intro h
    rcases List.append_eq_nil.mp h with ⟨-, htake⟩
    rcases List.take_eq_nil_iff.mp htake with h0 | h0
    · have : 1 ≤ min (max_buf - b.q.length) bytes.length := by
        apply le_min <;> omega
      omega
    · exact hb h0
  have hread2 : read_events_unlocked
      { b with q := b.q ++ bytes.take (min (max_buf - b.q.length) bytes.length) } ≠ 0 := by
    intro h
    exact hq2 ((read_events_eq_zero_iff _).mp h).1
  unfold af_local_buffer.write mkWriteUio
  simp only
  rw [if_neg hres, if_neg (by rw [hev4]; decide), if_neg (by rw [hev4]; decide)]
  rw [writeLoop_single f b bytes hr hroom hb]
  simp only [if_pos hread2]
  rfl

lemma readLoop_single (f : Nat) (b : af_local_buffer) (base : List Nat) (len : Nat)
    (hq : b.q ≠ []) (hlen : 0 < len) :
    readLoop (Nat.succ (Nat.succ f)) [{ iov_base := base, iov_len := len }] (len : Int) b =
      some ([{ iov_base := b.q.take (min b.q.length len) ++ base.drop (min b.q.length len),
               iov_len := len }],
        (len : Int) - (min b.q.length len : Nat),
        { b with q := b.q.drop (min b.q.length len) }) := by
  have hres : (len : Int) ≠ 0 := Nat.cast_ne_zero.mpr (by omega)
  have hev : read_events_unlocked b &&& POLLIN ≠ 0 := (pollin_iff b).mpr hq
  rcases le_or_lt b.q.length len with hle | hlt
  · rw [min_eq_left hle]
    simp only [readLoop, if_pos (And.intro hres hev), min_eq_left hle]
    rw [if_neg]
    intro hcontra
    have : b.q.drop b.q.length = [] := List.drop_length b.q
    exact (pollin_iff _).mp hcontra.2 (by simp [this])
  · have hlt' : len ≤ b.q.length := le_of_lt hlt
    rw [min_eq_right hlt']
    simp only [readLoop, if_pos (And.intro hres hev), min_eq_right hlt']
    rw [if_neg]
    intro hcontra
    exact hcontra.1 (by simp)

lemma read_spec (b : af_local_buffer) (base : List Nat) (len fuel : Nat)
    (hq : b.q ≠ []) (hlen : 0 < len) (hfuel : 2 ≤ fuel) :
    b.read { uio_iov := [{ iov_base := base, iov_len := len }], uio_resid := (len : Int) } fuel =
      .done (0, { b with q := b.q.drop (min b.q.length len) },
        { uio_iov :=
            [{ iov_base := b.q.take (min b.q.length len) ++ base.drop (min b.q.length len),
               iov_len := len }],
          uio_resid := (len : Int) - (min b.q.length len : Nat) },
        (if write_events_unlocked { b with q := b.q.drop (min b.q.length len) } ≠ 0 then
            [Wake.poll_wake Role.sender POLLOUT]
          else []) ++ [Wake.wake_all CondVar.may_write]) := by
  obtain ⟨f, rfl⟩ : ∃ f, fuel = Nat.succ (Nat.succ f) := ⟨fuel - 2, by omega⟩
  have hres : (len : Int) ≠ 0 := Nat.cast_ne_zero.mpr (by omega)
  have hevne : read_events_unlocked b ≠ 0 := by
    intro h
    exact hq ((read_events_eq_zero_iff b).mp h).1
  have hev : read_events_unlocked b &&& POLLIN ≠ 0 := (pollin_iff b).mpr hq
  unfold af_local_buffer.read
  simp only
  rw [if_neg hres, if_neg hevne, if_neg hev]
  rw [readLoop_single f b base len hq hlen]

/-! ### Degenerate-path specifications -/

lemma read_zero_spec (b : af_local_buffer) (data : uio) (fuel : Nat)
    (h : data.uio_resid = 0) :
    b.read data fuel = .done (0, b, data, []) := by
  unfold af_local_buffer.read
  rw [if_pos h]

lemma write_zero_spec (b : af_local_buffer) (data : uio) (fuel : Nat)
    (h : data.uio_resid = 0) :
    b.write data fuel = .done (0, b, data, []) := by
  unfold af_local_buffer.write
  rw [if_pos h]

lemma write_epipe_spec (b : af_local_buffer) (data : uio) (fuel : Nat)
    (hr : b.receiver = false) (hres : data.uio_resid ≠ 0) :
    b.write data fuel = .done (EPIPE, b, data, [Wake.wake_all .may_read]) := by
  have hev : write_events_unlocked b = POLLHUP := by
    unfold write_events_unlocked
    simp [hr]
  unfold af_local_buffer.write
  rw [if_neg hres, if_neg (by rw [hev]; decide), if_pos (by rw [hev]; decide)]

lemma write_blocked_spec (b : af_local_buffer) (data : uio) (fuel : Nat)
    (hr : b.receiver = true) (hfull : ¬ b.q.length < max_buf) (hres : data.uio_resid ≠ 0) :
    b.write data fuel = .blocked := by
  have hev : write_events_unlocked b = 0 := (write_events_eq_zero_iff b).mpr ⟨hr, hfull⟩
  unfold af_local_buffer.write
  rw [if_neg hres, if_pos hev]

lemma read_eos_spec (b : af_local_buffer) (data : uio) (fuel : Nat)
    (hs : b.sender = false) (hq : b.q = []) (hres : data.uio_resid ≠ 0) :
    b.read data fuel = .done (0, b, data, [Wake.wake_all .may_write]) := by
  have hev : read_events_unlocked b = POLLRDHUP := by
    unfold read_events_unlocked
    simp [hs, hq]
  unfold af_local_buffer.read
  rw [if_neg hres, if_neg (by rw [hev]; decide), if_pos (by rw [hev]; decide)]

lemma read_blocked_spec (b : af_local_buffer) (data : uio) (fuel : Nat)
    (hs : b.sender = true) (hq : b.q = []) (hres : data.uio_resid ≠ 0) :
    b.read data fuel = .blocked := by
  have hev : read_events_unlocked b = 0 := (read_events_eq_zero_iff b).mpr ⟨hq, hs⟩
  unfold af_local_buffer.read
  rw [if_neg hres, if_pos hev]

/-! ### Capacity preservation -/

lemma writeLoop_capacity (fuel : Nat) :
    ∀ (iovs : List iovec) (resid : Int) (b : af_local_buffer) (resid2 : Int)
      (b2 : af_local_buffer),
      writeLoop fuel iovs resid b = some (resid2, b2) →
      b.q.length ≤ max_buf → b2.q.length ≤ max_buf := by
  induction fuel with
  | zero =>
    intro iovs resid b resid2 b2 h _
    simp [writeLoop] at h
  | succ f ih =>
    intro iovs resid b resid2 b2 h hcap
    by_cases hcond : resid ≠ 0 ∧ write_events_unlocked b &&& POLLOUT ≠ 0
    · cases iovs with
      | nil =>
        simp only [writeLoop, if_pos hcond] at h
        exact absurd h (by simp)
      | cons iov0 rest =>
        simp only [writeLoop, if_pos hcond] at h
        have hroom : b.q.length < max_buf := ((pollout_iff b).mp hcond.2).2
        refine ih _ _ _ _ _ h ?_
        simp only [List.length_append, List.length_take]
        have hmin : min (min (max_buf - b.q.length) iov0.iov_len) iov0.iov_base.length ≤
            max_buf - b.q.length := le_trans (min_le_left _ _) (min_le_left _ _)
        omega
    · simp only [writeLoop, if_neg hcond, Option.some.injEq, Prod.mk.injEq] at h
      obtain ⟨rfl, rfl⟩ := h
      exact hcap

lemma readLoop_shrinks (fuel : Nat) :
    ∀ (iovs : List iovec) (resid : Int) (b : af_local_buffer) (iovs2 : List iovec)
      (resid2 : Int) (b2 : af_local_buffer),
      readLoop fuel iovs resid b = some (iovs2, resid2, b2) →
      b2.q.length ≤ b.q.length := by
  induction fuel with
  | zero =>
    intro iovs resid b iovs2 resid2 b2 h
    simp [readLoop] at h
  | succ f ih =>
    intro iovs resid b iovs2 resid2 b2 h
    by_cases hcond : resid ≠ 0 ∧ read_events_unlocked b &&& POLLIN ≠ 0
    · cases iovs with
      | nil =>
        simp only [readLoop, if_pos hcond] at h
        exact absurd h (by simp)
      | cons iov0 rest =>
        simp only [readLoop, if_pos hcond] at h
        refine le_trans (ih _ _ _ _ _ _ h) ?_
        simp only [List.length_drop]
        omega
    · simp only [readLoop, if_neg hcond, Option.some.injEq, Prod.mk.injEq] at h
      obtain ⟨-, -, rfl⟩ := h
      exact le_refl _

lemma write_capacity (b : af_local_buffer) (data : uio) (fuel : Nat) (r : Int)
    (b2 : af_local_buffer) (data2 : uio) (w : List Wake)
    (h : b.write data fuel = .done (r, b2, data2, w))
    (hcap : b.q.length ≤ max_buf) : b2.q.length ≤ max_buf := by
  unfold af_local_buffer.write at h
  by_cases h1 : data.uio_resid = 0
  · rw [if_pos h1] at h
    simp only [CallResult.done.injEq, Prod.mk.injEq] at h
    obtain ⟨-, rfl, -, -⟩ := h
    exact hcap
  · rw [if_neg h1] at h
    by_cases h2 : write_events_unlocked b = 0
    · rw [if_pos h2] at h
      exact absurd h (by simp)
    · rw [if_neg h2] at h
      by_cases h3 : write_events_unlocked b &&& POLLOUT = 0
      · rw [if_pos h3] at h
        simp only [CallResult.done.injEq, Prod.mk.injEq] at h
        obtain ⟨-, rfl, -, -⟩ := h
        exact hcap
      · rw [if_neg h3] at h
        rcases hl : writeLoop fuel data.uio_iov data.uio_resid b with - | p
        · rw [hl] at h
          exact absurd h (by simp)
        · rcases p with ⟨resid3, b3⟩
          rw [hl] at h
          simp only [CallResult.done.injEq, Prod.mk.injEq] at h
          obtain ⟨-, rfl, -, -⟩ := h
          exact writeLoop_capacity fuel _ _ _ _ _ hl hcap

lemma read_capacity (b : af_local_buffer) (data : uio) (fuel : Nat) (r : Int)
    (b2 : af_local_buffer) (data2 : uio) (w : List Wake)
    (h : b.read data fuel = .done (r, b2, data2, w)) : b2.q.length ≤ b.q.length := by
  unfold af_local_buffer.read at h
  by_cases h1 : data.uio_resid = 0
  · rw [if_pos h1] at h
    simp only [CallResult.done.injEq, Prod.mk.injEq] at h
    obtain ⟨-, rfl, -, -⟩ := h
    exact le_refl _
  · rw [if_neg h1] at h
    by_cases h2 : read_events_unlocked b = 0
    · rw [if_pos h2] at h
      exact absurd h (by simp)
    · rw [if_neg h2] at h
      by_cases h3 : read_events_unlocked b &&& POLLIN = 0
      · rw [if_pos h3] at h
        simp only [CallResult.done.injEq, Prod.mk.injEq] at h
        obtain ⟨-, rfl, -, -⟩ := h
        exact le_refl _
      · rw [if_neg h3] at h
        rcases hl : readLoop fuel data.uio_iov data.uio_resid b with - | p
        · rw [hl] at h
          exact absurd h (by simp)
        · rcases p with ⟨iovs3, resid3, b3⟩
          rw [hl] at h
          simp only [CallResult.done.injEq, Prod.mk.injEq] at h
          obtain ⟨-, rfl, -, -⟩ := h
          exact readLoop_shrinks fuel _ _ _ _ _ _ hl

/-! ### Operation sequences over one channel

`runOp`/`run` drive one `af_local_buffer` through a sequence of
single-segment `read`/`write` calls (built exactly as the endpoint layer
builds them: one iovec, `uio_resid` = its length) and half-close calls.
Along the way they record the caller-observable bytes: for a read, the
prefix of the gathered destination memory covered by the consumed count;
for a write, the prefix of the source that the call accepted.  A call that
would block contributes nothing (it has not completed). -/

inductive ChanOp
  | write (bytes : List Nat)
  | read (len : Nat)
  | detach_sender
  | detach_receiver
deriving Repr, DecidableEq

def runOp (b : af_local_buffer) : ChanOp → af_local_buffer × List Nat × List Nat
  | ChanOp.write bytes =>
    match b.write (mkWriteUio bytes) (max_buf + 2) with
    | .done (_, b2, data2, _) => (b2, [], bytes.take (bytes.length - data2.uio_resid.toNat))
    | _ => (b, [], [])
  | ChanOp.read len =>
    match b.read (mkReadUio len) (b.q.length + 2) with
    | .done (_, b2, data2, _) =>
      (b2, (gatherBytes data2.uio_iov).take (len - data2.uio_resid.toNat), [])
    | _ => (b, [], [])
  | ChanOp.detach_sender => ((b.detach_sender).1, [], [])
  | ChanOp.detach_receiver => ((b.detach_receiver).1, [], [])

/-- Run a sequence of operations; returns (final state, all bytes
delivered to readers in order, all bytes accepted from writers in order). -/
def run : af_local_buffer → List ChanOp → af_local_buffer × List Nat × List Nat
  | b, [] => (b, [], [])
  | b, op :: ops =>
    ((run (runOp b op).1 ops).1,
     (runOp b op).2.1 ++ (run (runOp b op).1 ops).2.1,
     (runOp b op).2.2 ++ (run (runOp b op).1 ops).2.2)

lemma runOp_fifo (b : af_local_buffer) (op : ChanOp) :
    (runOp b op).2.1 ++ ((runOp b op).1).q = b.q ++ (runOp b op).2.2 := by
  cases op with
  | write bytes =>
    by_cases hb : bytes = []
    · subst hb
      have hz : (mkWriteUio ([] : List Nat)).uio_resid = 0 := by simp [mkWriteUio]
      simp only [runOp, write_zero_spec b _ _ hz]
      simp [mkWriteUio]
    · cases hr : b.receiver with
      | false =>
        have hres : (mkWriteUio bytes).uio_resid ≠ 0 := by
          simp only [mkWriteUio]
          exact Nat.cast_ne_zero.mpr (fun h => hb (List.length_eq_zero.mp h))
        simp only [runOp, write_epipe_spec b _ _ hr hres]
        simp [mkWriteUio]
      | true =>
        by_cases hroom : b.q.length < max_buf
        · have hn : min (max_buf - b.q.length) bytes.length ≤ bytes.length := min_le_right _ _
          simp only [runOp, write_spec b bytes (max_buf + 2) hr hroom hb (by omega)]
          simp only [Int.toNat_sub]
          rw [Nat.sub_sub_self hn]
          simp
        · have hres : (mkWriteUio bytes).uio_resid ≠ 0 := by
            simp only [mkWriteUio]
            exact Nat.cast_ne_zero.mpr (fun h => hb (List.length_eq_zero.mp h))
          simp only [runOp, write_blocked_spec b _ _ hr hroom hres]
          simp
  | read len =>
    by_cases hl : len = 0
    · subst hl
      have hz : (mkReadUio 0).uio_resid = 0 := by simp [mkReadUio]
      simp only [runOp, read_zero_spec b _ _ hz]
      simp [mkReadUio]
    · by_cases hq : b.q = []
      · cases hs : b.sender with
        | true =>
          have hres : (mkReadUio len).uio_resid ≠ 0 := by
            simp only [mkReadUio]
            exact Nat.cast_ne_zero.mpr hl
          simp only [runOp, read_blocked_spec b _ _ hs hq hres]
          simp
        | false =>
          have hres : (mkReadUio len).uio_resid ≠ 0 := by
            simp only [mkReadUio]
            exact Nat.cast_ne_zero.mpr hl
          simp only [runOp, read_eos_spec b _ _ hs hq hres]
          simp [mkReadUio, hq]
      · have hspec := read_spec b (List.replicate len 0) len (b.q.length + 2) hq
          (Nat.pos_of_ne_zero hl) (by omega)
        have hmk : mkReadUio len =
            { uio_iov := [{ iov_base := List.replicate len 0, iov_len := len }],
              uio_resid := (len : Int) } := rfl
        simp only [runOp, hmk, hspec]
        simp only [Int.toNat_sub]
        have hn : min b.q.length len ≤ b.q.length := min_le_left _ _
        rw [Nat.sub_sub_self (min_le_right _ _)]
        simp only [gatherBytes]
        rw [List.append_nil]
        have hlen_take : (b.q.take (min b.q.length len)).length = min b.q.length len := by
          rw [List.length_take]
          omega
        rw [List.take_left' hlen_take, List.take_append_drop]
        simp
  | detach_sender =>
    cases hs : b.sender <;> simp [runOp, af_local_buffer.detach_sender, hs]
  | detach_receiver =>
    cases hrv : b.receiver <;> simp [runOp, af_local_buffer.detach_receiver, hrv]

lemma runOp_capacity (b : af_local_buffer) (op : ChanOp)
    (hcap : b.q.length ≤ max_buf) : ((runOp b op).1).q.length ≤ max_buf := by
  cases op with
  | write bytes =>
    rcases hw : b.write (mkWriteUio bytes) (max_buf + 2) with - | - | val
    · simp [runOp, hw, hcap]
    · simp [runOp, hw, hcap]
    · rcases val with ⟨r, b2, data2, w⟩
      simp only [runOp, hw]
      exact write_capacity b _ _ r b2 data2 w hw hcap
  | read len =>
    rcases hrd : b.read (mkReadUio len) (b.q.length + 2) with - | - | val
    · simp [runOp, hrd, hcap]
    · simp [runOp, hrd, hcap]
    · rcases val with ⟨r, b2, data2, w⟩
      simp only [runOp, hrd]
      exact le_trans (read_capacity b _ _ r b2 data2 w hrd) hcap
  | detach_sender =>
    cases hs : b.sender <;> simp [runOp, af_local_buffer.detach_sender, hs, hcap]
  | detach_receiver =>
    cases hrv : b.receiver <;> simp [runOp, af_local_buffer.detach_receiver, hrv, hcap]

lemma run_fifo (ops : List ChanOp) :
    ∀ b : af_local_buffer,
      (run b ops).2.1 ++ ((run b ops).1).q = b.q ++ (run b ops).2.2 := by
  induction ops with
  | nil =>
    intro b
    simp [run]
  | cons op ops ih =>
    intro b
    simp only [run]
    rw [List.append_assoc, ih ((runOp b op).1), ← List.append_assoc, runOp_fifo,
      List.append_assoc]

lemma run_capacity (ops : List ChanOp) :
    ∀ b : af_local_buffer, b.q.length ≤ max_buf → ((run b ops).1).q.length ≤ max_buf := by
  induction ops with
  | nil =>
    intro b h
    simpa [run] using h
  | cons op ops ih =>
    intro b h
    exact ih _ (runOp_capacity b op h)

/-! ### Error-code and notification behaviour of a completed call -/

lemma write_err_cases (b : af_local_buffer) (data : uio) (fuel : Nat) (r : Int)
    (b2 : af_local_buffer) (data2 : uio) (w : List Wake)
    (h : b.write data fuel = .done (r, b2, data2, w)) : r = 0 ∨ r = EPIPE := by
  unfold af_local_buffer.write at h
  by_cases h1 : data.uio_resid = 0
  · rw [if_pos h1] at h
    simp only [CallResult.done.injEq, Prod.mk.injEq] at h
    exact Or.inl h.1.symm
  · rw [if_neg h1] at h
    by_cases h2 : write_events_unlocked b = 0
    · rw [if_pos h2] at h
      exact absurd h (by simp)
    · rw [if_neg h2] at h
      by_cases h3 : write_events_unlocked b &&& POLLOUT = 0
      · rw [if_pos h3] at h
        simp only [CallResult.done.injEq, Prod.mk.injEq] at h
        exact Or.inr h.1.symm
      · rw [if_neg h3] at h
        rcases hl : writeLoop fuel data.uio_iov data.uio_resid b with - | p
        · rw [hl] at h
          exact absurd h (by simp)
        · rcases p with ⟨resid3, b3⟩
          rw [hl] at h
          simp only [CallResult.done.injEq, Prod.mk.injEq] at h
          exact Or.inl h.1.symm

lemma write_wake_iff (b : af_local_buffer) (data : uio) (fuel : Nat) (r : Int)
    (b2 : af_local_buffer) (data2 : uio) (w : List Wake)
    (h : b.write data fuel = .done (r, b2, data2, w)) :
    Wake.poll_wake .receiver POLLIN ∈ w ↔
      (data.uio_resid ≠ 0 ∧ write_events_unlocked b &&& POLLOUT ≠ 0 ∧
        read_events_unlocked b2 ≠ 0) := by
  unfold af_local_buffer.write at h
  by_cases h1 : data.uio_resid = 0
  · rw [if_pos h1] at h
    simp only [CallResult.done.injEq, Prod.mk.injEq] at h
    obtain ⟨-, -, -, rfl⟩ := h
    simp [h1]
  · rw [if_neg h1] at h
    by_cases h2 : write_events_unlocked b = 0
    · rw [if_pos h2] at h
      exact absurd h (by simp)
    · rw [if_neg h2] at h
      by_cases h3 : write_events_unlocked b &&& POLLOUT = 0
      · rw [if_pos h3] at h
        simp only [CallResult.done.injEq, Prod.mk.injEq] at h
        obtain ⟨-, -, -, rfl⟩ := h
        simp [h3]
      · rw [if_neg h3] at h
        rcases hl : writeLoop fuel data.uio_iov data.uio_resid b with - | p
        · rw [hl] at h
          exact absurd h (by simp)
        · rcases p with ⟨resid3, b3⟩
          rw [hl] at h
          simp only [CallResult.done.injEq, Prod.mk.injEq] at h
          obtain ⟨-, rfl, -, rfl⟩ := h
          by_cases hre : read_events_unlocked b3 ≠ 0
          · simp [hre, h1, h3]
          · simp [hre, h1, h3]

lemma read_wake_iff (b : af_local_buffer) (data : uio) (fuel : Nat) (r : Int)
    (b2 : af_local_buffer) (data2 : uio) (w : List Wake)
    (h : b.read data fuel = .done (r, b2, data2, w)) :
    Wake.poll_wake .sender POLLOUT ∈ w ↔
      (data.uio_resid ≠ 0 ∧ read_events_unlocked b &&& POLLIN ≠ 0 ∧
        write_events_unlocked b2 ≠ 0) := by
  unfold af_local_buffer.read at h
  by_cases h1 : data.uio_resid = 0
  · rw [if_pos h1] at h
    simp only [CallResult.done.injEq, Prod.mk.injEq] at h
    obtain ⟨-, -, -, rfl⟩ := h
    simp [h1]
  · rw [if_neg h1] at h
    by_cases h2 : read_events_unlocked b = 0
    · rw [if_pos h2] at h
      exact absurd h (by simp)
    · rw [if_neg h2] at h
      by_cases h3 : read_events_unlocked b &&& POLLIN = 0
      · rw [if_pos h3] at h
        simp only [CallResult.done.injEq, Prod.mk.injEq] at h
        obtain ⟨-, -, -, rfl⟩ := h
        simp [h3]
      · rw [if_neg h3] at h
        rcases hl : readLoop fuel data.uio_iov data.uio_resid b with - | p
        · rw [hl] at h
          exact absurd h (by simp)
        · rcases p with ⟨iovs3, resid3, b3⟩
          rw [hl] at h
          simp only [CallResult.done.injEq, Prod.mk.injEq] at h
          obtain ⟨-, rfl, -, rfl⟩ := h
          by_cases hwe : write_events_unlocked b3 ≠ 0
          · simp [hwe, h1, h3]
          · simp [hwe, h1, h3]

/-! ### Claim theorems -/

/-- The state of a channel in a freshly connected pair, after
`af_local_init` has attached both endpoints: empty queue, sender and
receiver present. -/
def connected_buffer : af_local_buffer :=
  { q := [], receiver := true, sender := true }

/-- C1 (counterexample to the claim as stated): bytes [1,2,3] are written
into a fresh channel with one single-segment call, then read back in ONE
call whose destination is split into two segments (2 bytes + 1 byte).
The copy loop never advances past the first segment: the caller observes
[3,2,0], not [1,2,3].  FIFO delivery fails for multi-segment reads. -/
theorem C1_multiseg_counterexample :
    af_local_buffer.write connected_buffer (mkWriteUio [1, 2, 3]) 2 =
      .done (0, { q := [1, 2, 3], receiver := true, sender := true },
        { uio_iov := [{ iov_base := [1, 2, 3], iov_len := 3 }], uio_resid := 0 },
        [Wake.poll_wake .receiver POLLIN, Wake.wake_all .may_read]) ∧
    af_local_buffer.read { q := [1, 2, 3], receiver := true, sender := true }
        { uio_iov := [{ iov_base := [0, 0], iov_len := 2 }, { iov_base := [0], iov_len := 1 }],
          uio_resid := 3 } 4 =
      .done (0, { q := [], receiver := true, sender := true },
        { uio_iov := [{ iov_base := [3, 2], iov_len := 2 }, { iov_base := [0], iov_len := 1 }],
          uio_resid := 0 },
        [Wake.poll_wake .sender POLLOUT, Wake.wake_all .may_write]) ∧
    (gatherBytes [{ iov_base := [3, 2], iov_len := 2 },
        { iov_base := [0], iov_len := 1 }]).take 3 = [3, 2, 0] ∧
    ([3, 2, 0] : List Nat) ≠ [1, 2, 3] := by
  decide

/-- C1 (amended): for single-writer/single-reader sequences of
SINGLE-SEGMENT read and write calls on one channel (any chunking across
calls, plus arbitrary half-close operations), the bytes delivered to the
reader followed by the bytes still queued are exactly the bytes accepted
from the writer, in write order — i.e. reads deliver bytes in exactly the
order written. -/
theorem C1_fifo_single_segment :
    ∀ ops : List ChanOp,
      (run connected_buffer ops).2.1 ++ ((run connected_buffer ops).1).q =
        (run connected_buffer ops).2.2 := by
  intro ops
  have h := run_fifo ops connected_buffer
  simpa [connected_buffer] using h

/-- C2: the queue never exceeds the 8192-byte capacity: (a) any completed
write call (any segment layout) preserves `q.length ≤ max_buf`; (b) every
sequence of single-segment operations preserves it; (c) a single-segment
write whose source exceeds the remaining capacity accepts exactly the
remaining capacity (short write filling the queue to exactly `max_buf`),
never overflowing. -/
theorem C2_capacity :
    (∀ (b : af_local_buffer) (data : uio) (fuel : Nat) (r : Int) (b2 : af_local_buffer)
        (data2 : uio) (w : List Wake),
      b.write data fuel = .done (r, b2, data2, w) →
      b.q.length ≤ max_buf → b2.q.length ≤ max_buf) ∧
    (∀ (ops : List ChanOp) (b : af_local_buffer),
      b.q.length ≤ max_buf → ((run b ops).1).q.length ≤ max_buf) ∧
    (∀ (b : af_local_buffer) (bytes : List Nat) (fuel : Nat),
      b.receiver = true → b.q.length < max_buf → max_buf - b.q.length < bytes.length →
      2 ≤ fuel →
      b.write (mkWriteUio bytes) fuel =
        .done (0,
          { b with q := b.q ++ bytes.take (max_buf - b.q.length) },
          { uio_iov := [{ iov_base := bytes, iov_len := bytes.length }],
            uio_resid := (bytes.length : Int) - (max_buf - b.q.length : Nat) },
          [Wake.poll_wake .receiver POLLIN, Wake.wake_all .may_read]) ∧
        (b.q ++ bytes.take (max_buf - b.q.length)).length = max_buf) := by
  refine ⟨write_capacity, fun ops b => run_capacity ops b, ?_⟩
  intro b bytes fuel hr hroom hover hfuel
  have hb : bytes ≠ [] := by
    intro h
    rw [h] at hover
    simp at hover
  have hmin : min (max_buf - b.q.length) bytes.length = max_buf - b.q.length :=
    min_eq_left (le_of_lt hover)
  constructor
  · have h := write_spec b bytes fuel hr hroom hb hfuel
    rw [hmin] at h
    exact h
  · rw [List.length_append, List.length_take]
    omega

/-- C3: the readiness masks are exactly as specified — POLLIN iff the
queue is non-empty, POLLRDHUP iff the sender is detached, POLLOUT iff the
receiver is attached and the queue is below capacity, POLLHUP iff the
receiver is detached, and no other bits are ever set in either mask. -/
theorem C3_readiness (b : af_local_buffer) :
    (read_events_unlocked b &&& POLLIN ≠ 0 ↔ b.q ≠ []) ∧
    (read_events_unlocked b &&& POLLRDHUP ≠ 0 ↔ b.sender = false) ∧
    (write_events_unlocked b &&& POLLOUT ≠ 0 ↔
      (b.receiver = true ∧ b.q.length < max_buf)) ∧
    (write_events_unlocked b &&& POLLHUP ≠ 0 ↔ b.receiver = false) ∧
    read_events_unlocked b &&& (POLLIN ||| POLLRDHUP) = read_events_unlocked b ∧
    write_events_unlocked b &&& (POLLOUT ||| POLLHUP) = write_events_unlocked b :=
  ⟨pollin_iff b, pollrdhup_iff b, pollout_iff b, pollhup_iff b,
    read_events_only_bits b, write_events_only_bits b⟩

/-- C4: with the receiver detached, any non-zero-length write completes
immediately (no blocking) with EPIPE, zero bytes written and the channel
unchanged; EPIPE is the sole nonzero error code a write can return; and
`detach_receiver` broadcasts the write condition variable (waking any
blocked writer, which then re-evaluates against the detached state and
fails with EPIPE by the first part) while leaving the channel usable. -/
theorem C4_broken_pipe :
    (∀ (b : af_local_buffer) (data : uio) (fuel : Nat),
      b.receiver = false → data.uio_resid ≠ 0 →
      b.write data fuel = .done (EPIPE, b, data, [Wake.wake_all .may_read])) ∧
    (∀ (b : af_local_buffer) (data : uio) (fuel : Nat) (r : Int) (b2 : af_local_buffer)
        (data2 : uio) (w : List Wake),
      b.write data fuel = .done (r, b2, data2, w) → r = 0 ∨ r = EPIPE) ∧
    (∀ b : af_local_buffer, b.receiver = true →
      Wake.wake_all .may_write ∈ (b.detach_receiver).2 ∧
      ((b.detach_receiver).1).receiver = false ∧
      ((b.detach_receiver).1).q = b.q) := by
  refine ⟨write_epipe_spec, fun b data fuel => write_err_cases b data fuel, ?_⟩
  intro b hr
  unfold af_local_buffer.detach_receiver
  rw [hr]
  cases hs : b.sender <;> simp

/-- C5: with the sender detached and the queue empty, a non-zero-length
read completes immediately (no blocking) with result 0, consumes zero
bytes (`uio` unchanged), and leaves the channel unchanged — end-of-stream,
not an error.  Quantifying over all such states covers the reader that
has just drained the final buffered bytes. -/
theorem C5_end_of_stream :
    ∀ (b : af_local_buffer) (data : uio) (fuel : Nat),
      b.sender = false → b.q = [] → data.uio_resid ≠ 0 →
      b.read data fuel = .done (0, b, data, [Wake.wake_all .may_write]) :=
  read_eos_spec

/-- C6: a single-segment write into a channel with room accepts exactly
`min(remaining capacity, source length)` bytes in one pass and returns
without a second blocking wait (the result is `done`, reached through the
single entry wait): with 10000 source bytes and an empty queue this is
exactly 8192 accepted and 1808 left over (see the witness). -/
theorem C6_short_write :
    ∀ (b : af_local_buffer) (bytes : List Nat) (fuel : Nat),
      b.receiver = true → b.q.length < max_buf → bytes ≠ [] → 2 ≤ fuel →
      b.write (mkWriteUio bytes) fuel =
        .done (0,
          { b with q := b.q ++ bytes.take (min (max_buf - b.q.length) bytes.length) },
          { uio_iov := [{ iov_base := bytes, iov_len := bytes.length }],
            uio_resid :=
              (bytes.length : Int) - (min (max_buf - b.q.length) bytes.length : Nat) },
          [Wake.poll_wake .receiver POLLIN, Wake.wake_all .may_read]) :=
  write_spec

/-- C6 witness: writing 10000 bytes into a fresh (empty, capacity 8192)
channel in one call accepts exactly 8192 bytes; 1808 remain unwritten
(`uio_resid = 1808`), to be submitted by a later call. -/
theorem C6_short_write_witness :
    af_local_buffer.write connected_buffer (mkWriteUio (List.replicate 10000 7)) 2 =
      .done (0, { q := List.replicate 8192 7, receiver := true, sender := true },
        { uio_iov := [{ iov_base := List.replicate 10000 7, iov_len := 10000 }],
          uio_resid := 1808 },
        [Wake.poll_wake .receiver POLLIN, Wake.wake_all .may_read]) := by
  have hb : (List.replicate 10000 (7 : Nat)) ≠ [] := by
    intro h
    have h2 := congrArg List.length h
    rw [List.length_replicate] at h2
    simp at h2
  have hroom : connected_buffer.q.length < max_buf := by
    norm_num [connected_buffer, max_buf]
  have h := C6_short_write connected_buffer (List.replicate 10000 7) 2 rfl hroom hb (le_refl 2)
  have hq : connected_buffer.q = [] := rfl
  have hlen : (List.replicate (10000 : Nat) (7 : Nat)).length = 10000 :=
    List.length_replicate _ _
  have hmin : min (max_buf - connected_buffer.q.length)
      (List.replicate (10000 : Nat) (7 : Nat)).length = 8192 := by
    rw [hlen, hq]
    norm_num [max_buf]
  rw [hmin, hq, hlen] at h
  rw [List.take_replicate] at h
  rw [show min (8192 : Nat) 10000 = 8192 from by norm_num] at h
  rw [List.nil_append] at h
  rw [show ((10000 : Nat) : Int) - ((8192 : Nat) : Int) = 1808 from by norm_num] at h
  exact h

/-- C2 witness: a concrete operation sequence on a fresh channel keeps the
queue within the 8192-byte capacity. -/
theorem C2_capacity_witness :
    ((run connected_buffer [ChanOp.write [1, 2, 3], ChanOp.read 2]).1).q.length ≤ max_buf :=
  C2_capacity.2.1 [ChanOp.write [1, 2, 3], ChanOp.read 2] connected_buffer (by decide)

/-- C4 witness: a 1-byte write to a channel whose receiver is detached
fails with EPIPE, leaving queue and uio untouched. -/
theorem C4_broken_pipe_witness :
    af_local_buffer.write { q := [3], receiver := false, sender := true } (mkWriteUio [7]) 1 =
      .done (EPIPE, { q := [3], receiver := false, sender := true }, mkWriteUio [7],
        [Wake.wake_all .may_read]) :=
  C4_broken_pipe.1 { q := [3], receiver := false, sender := true } (mkWriteUio [7]) 1 rfl
    (by decide)

/-- C5 witness: reading 4 bytes from an empty channel whose sender is
detached returns immediately with 0 bytes consumed. -/
theorem C5_end_of_stream_witness :
    af_local_buffer.read { q := [], receiver := true, sender := false } (mkReadUio 4) 1 =
      .done (0, { q := [], receiver := true, sender := false }, mkReadUio 4,
        [Wake.wake_all .may_write]) :=
  C5_end_of_stream { q := [], receiver := true, sender := false } (mkReadUio 4) 1 rfl rfl
    (by decide)

/-- C7 (counterexample to the claim as stated): the queue is already
non-empty (`[9]`) before a 1-byte write, so read-readiness does NOT
transition from false to true during the write — yet the write still
issues the `poll_wake(receiver, POLLIN)` notification.  The "only on a
readiness transition, no notification otherwise" claim is false. -/
theorem C7_notify_counterexample :
    ({ q := [9], receiver := true, sender := true } : af_local_buffer).q ≠ [] ∧
    af_local_buffer.write { q := [9], receiver := true, sender := true } (mkWriteUio [5]) 2 =
      .done (0, { q := [9, 5], receiver := true, sender := true },
        { uio_iov := [{ iov_base := [5], iov_len := 1 }], uio_resid := 0 },
        [Wake.poll_wake .receiver POLLIN, Wake.wake_all .may_read]) := by
  decide

/-- C7 (amended): a completed write issues `poll_wake(receiver, POLLIN)`
if and only if the call reached its copy loop (nonzero request, POLLOUT
set at entry) and the whole read-side mask is nonzero afterwards (the
source tests `read_events_unlocked() && POLLIN`, a logical AND — the mask
being nonzero, not a false-to-true transition of the bit); symmetrically a
completed read issues `poll_wake(sender, POLLOUT)` iff it reached its copy
loop and the write-side mask is nonzero afterwards. -/
theorem C7_notify_on_nonzero_mask :
    (∀ (b : af_local_buffer) (data : uio) (fuel : Nat) (r : Int) (b2 : af_local_buffer)
        (data2 : uio) (w : List Wake),
      b.write data fuel = .done (r, b2, data2, w) →
      (Wake.poll_wake .receiver POLLIN ∈ w ↔
        (data.uio_resid ≠ 0 ∧ write_events_unlocked b &&& POLLOUT ≠ 0 ∧
          read_events_unlocked b2 ≠ 0))) ∧
    (∀ (b : af_local_buffer) (data : uio) (fuel : Nat) (r : Int) (b2 : af_local_buffer)
        (data2 : uio) (w : List Wake),
      b.read data fuel = .done (r, b2, data2, w) →
      (Wake.poll_wake .sender POLLOUT ∈ w ↔
        (data.uio_resid ≠ 0 ∧ read_events_unlocked b &&& POLLIN ≠ 0 ∧
          write_events_unlocked b2 ≠ 0))) :=
  ⟨write_wake_iff, read_wake_iff⟩

/-- C7 witness: instantiating the amended rule at a concrete write whose
post-state read mask is nonzero shows the notification present. -/
theorem C7_notify_witness :
    Wake.poll_wake Role.receiver POLLIN ∈
      [Wake.poll_wake Role.receiver POLLIN, Wake.wake_all CondVar.may_read] := by
  have h := C7_notify_on_nonzero_mask.1 { q := [9], receiver := true, sender := true }
    (mkWriteUio [5]) 2 0 { q := [9, 5], receiver := true, sender := true }
    { uio_iov := [{ iov_base := [5], iov_len := 1 }], uio_resid := 0 }
    [Wake.poll_wake Role.receiver POLLIN, Wake.wake_all CondVar.may_read] (by decide)
  exact h.mpr (by decide)

/-- C8 (counterexample to the claim as stated): a SOCK_DGRAM request does
not come back to the caller as an invalid-argument error return — the
entry assertions fail instead (process abort). -/
theorem C8_invalid_args_counterexample :
    socketpair_af_local SOCK_DGRAM 0 = SocketpairResult.assert_failed ∧
    socketpair_af_local SOCK_DGRAM 0 ≠ SocketpairResult.errno_return EINVAL := by
  decide

/-- C8 (amended): any pair-creation request whose type is not SOCK_STREAM
or whose protocol is nonzero is stopped by the entry assertions — a fatal
assertion failure before any channel, pair or handle is allocated — not an
invalid-argument error returned to the caller. -/
theorem C8_assert_on_bad_args :
    ∀ type proto : Int, (type ≠ SOCK_STREAM ∨ proto ≠ 0) →
      socketpair_af_local type proto = SocketpairResult.assert_failed := by
  intro type proto h
  unfold socketpair_af_local
  rcases h with h | h
  · rw [if_neg h]
  · by_cases ht : type = SOCK_STREAM
    · rw [if_pos ht, if_neg h]
    · rw [if_neg ht]

/-- C8 witness: the amended rule applied to a SOCK_DGRAM request. -/
theorem C8_assert_witness :
    socketpair_af_local SOCK_DGRAM 0 = SocketpairResult.assert_failed :=
  C8_assert_on_bad_args SOCK_DGRAM 0 (Or.inl (by decide))

/-- C9: in every channel state, a zero-length read or write returns 0
immediately with the channel state, the uio and the notification trace all
untouched (no blocking, no wakeups, no queue or attachment change). -/
theorem C9_zero_length_noop :
    ∀ (b : af_local_buffer) (data : uio) (fuel : Nat), data.uio_resid = 0 →
      b.read data fuel = .done (0, b, data, []) ∧
      b.write data fuel = .done (0, b, data, []) :=
  fun b data fuel h => ⟨read_zero_spec b data fuel h, write_zero_spec b data fuel h⟩

/-- C9 witness: zero-length calls on a non-empty open channel. -/
theorem C9_zero_length_witness :
    af_local_buffer.read { q := [1, 2], receiver := true, sender := true }
        { uio_iov := [], uio_resid := 0 } 0 =
      .done (0, { q := [1, 2], receiver := true, sender := true },
        { uio_iov := [], uio_resid := 0 }, []) ∧
    af_local_buffer.write { q := [1, 2], receiver := true, sender := true }
        { uio_iov := [], uio_resid := 0 } 0 =
      .done (0, { q := [1, 2], receiver := true, sender := true },
        { uio_iov := [], uio_resid := 0 }, []) :=
  C9_zero_length_noop _ _ 0 rfl

/-- C10: the zero-length fast path runs before the lock and before any
hangup condition is examined: a zero-length write returns 0 — success,
not EPIPE — even with the receiver detached, and a zero-length read
returns 0 with an empty notification trace (the read-hangup branch is
never reached) even with the sender detached. -/
theorem C10_zero_length_detached :
    ∀ (b : af_local_buffer) (data : uio) (fuel : Nat),
      data.uio_resid = 0 → b.receiver = false → b.sender = false →
      b.write data fuel = .done (0, b, data, []) ∧
      b.read data fuel = .done (0, b, data, []) ∧
      (0 : Int) ≠ EPIPE :=
  fun b data fuel h _ _ =>
    ⟨write_zero_spec b data fuel h, read_zero_spec b data fuel h, by decide⟩

/-- C10 witness: zero-length calls on a fully detached channel. -/
theorem C10_zero_length_detached_witness :
    af_local_buffer.write { q := [], receiver := false, sender := false }
        { uio_iov := [], uio_resid := 0 } 0 =
      .done (0, { q := [], receiver := false, sender := false },
        { uio_iov := [], uio_resid := 0 }, []) ∧
    (0 : Int) ≠ EPIPE :=
  ⟨(C10_zero_length_detached { q := [], receiver := false, sender := false }
      { uio_iov := [], uio_resid := 0 } 0 rfl rfl rfl).1,
    (C10_zero_length_detached { q := [], receiver := false, sender := false }
      { uio_iov := [], uio_resid := 0 } 0 rfl rfl rfl).2.2⟩
